import Mathlib

/-!
# Verification of the Zabbix web-scenario poller (httppoller/httptest.c) and
# the embedded-script XML helper (zbxembed/xml.c)

Shallow embedding of the scenario execution engine found in
`src/zabbix_server/httppoller/httptest.c` and of the XML-object installation
found in `src/libs/zbxembed/xml.c`.

Modelling conventions:
* C strings are Lean `String`s (`NULL` and `""` are both modelled as `""`
  where the code only distinguishes `NULL != s && '\0' != *s`, or as
  `Option String` where the distinction matters, e.g. `err_str`).
* C `double` metric values are modelled as `Rat`.
* External collaborators that are not part of this repository (libcurl, the
  macro-substitution service, `zbx_is_time_suffix`, `zbx_int_in_list`,
  `zbx_regexp_match`, `http_process_variables`, DB rows) are modelled as
  oracle functions / per-step world records whose outputs the engine consumes,
  exactly at the call sites where the C code consumes them.
* `curl_easy_setopt` calls on a valid handle that merely store an option are
  modelled as always succeeding; the failure paths the code checks for them
  are not reachable in this model.
-/

/-! ## Constants (values of the referenced `#define`s; the headers defining
them are not part of src/, values taken from the spec and the code's use) -/

def ZBX_DEFAULT_INTERVAL : Int := 60

def SEC_PER_HOUR : Int := 3600

def ZBX_RETRIEVE_MODE_CONTENT : Int := 0

def ZBX_RETRIEVE_MODE_HEADERS : Int := 1

def ZBX_RETRIEVE_MODE_BOTH : Int := 2

def ZBX_POSTTYPE_RAW : Int := 0

def ZBX_POSTTYPE_FORM : Int := 1

/-! ## `httpstep_pairs_join` (httptest.c lines 207-225)

Concatenates a vector of (key,value) pairs: between the key and its value the
`value_delimiter` is placed, between consecutive pairs the `pair_delimiter`. -/

def pairs_join (value_delim pair_delim : String) : List (String × String) → String
  | [] => ""
  | [(k, v)] => k ++ value_delim ++ v
  | (k, v) :: p :: rest => k ++ value_delim ++ v ++ pair_delim ++ pairs_join value_delim pair_delim (p :: rest)

/-! ## URL composition in `httpstep_load_pairs` (httptest.c lines 435-457)

`*value = '\0'` at the first `#` truncates the URL; then, when query fields
exist, a delimiter is chosen (`?` unless the truncated URL already contains a
`?`, then `&`) and the joined query fields are appended. The punycode step
(line 459, external `zbx_http_punycode_encode_url`) is outside this model. -/

def truncate_at_hash : List Char → List Char
  | [] => []
  | c :: cs => if c = '#' then [] else c :: truncate_at_hash cs

def contains_char : List Char → Char → Bool
  | [], _ => false
  | c :: cs, ch => c = ch || contains_char cs ch

def strip_fragment (url : String) : String :=
  String.mk (truncate_at_hash url.data)

def url_has_query (url : String) : Bool :=
  contains_char url.data '?'

def compose_wire_url (url : String) (query_fields : List (String × String)) : String :=
  let u := strip_fragment url
  if 0 < query_fields.length then
    let query_delimiter := if url_has_query u then "&" else "?"
    u ++ query_delimiter ++ pairs_join "=" "&" query_fields
  else
    u

/-! ## Header assembler: `add_http_headers` (httptest.c lines 494-513)

The line with the exact, case-sensitive `Cookie:` front piece is routed into
the cookie slot (overwriting any earlier one); all other lines are appended to
the curl header list. -/

/-- Modelled from the spec: `zbx_http_parse_header` (zbxhttp library, not in
src/) yields the `Name: value` lines of the CRLF-separated header string. -/
def parse_header_lines (headers : String) : List String :=
  (split_crlf headers.data []).filter (fun l => l ≠ "")
where
  split_crlf : List Char → List Char → List String
    | [], acc => [String.mk acc.reverse]
    | '\r' :: '\n' :: rest, acc => String.mk acc.reverse :: split_crlf rest []
    | c :: rest, acc => split_crlf rest (c :: acc)

/-- `0 == strncmp(COOKIE_HEADER_STR, line, COOKIE_HEADER_STR_LEN)` with
`COOKIE_HEADER_STR = "Cookie:"`: case-sensitive exact front-piece match. -/
def has_cookie_hdr : List Char → List Char → Bool
  | [], _ => true
  | _ :: _, [] => false
  | p :: ps, c :: cs => p = c && has_cookie_hdr ps cs

def is_cookie_line (line : String) : Bool :=
  has_cookie_hdr "Cookie:".data line.data

/-- `line + COOKIE_HEADER_STR_LEN`: the remainder after the 7-character
`Cookie:` front piece. -/
def cookie_rest (line : String) : String :=
  String.mk (line.data.drop 7)

structure HeadersOut where
  headers_slist : List String
  header_cookie : Option String
deriving DecidableEq

def add_http_headers_go : List String → List String → Option String → HeadersOut
  | [], slist, cookie => ⟨slist, cookie⟩
  | line :: rest, slist, cookie =>
    if is_cookie_line line then
      add_http_headers_go rest slist (some (cookie_rest line))
    else
      add_http_headers_go rest (slist ++ [line]) cookie

def add_http_headers (headers : String) : HeadersOut :=
  add_http_headers_go (parse_header_lines headers) [] none

/-! ## The retry loop (httptest.c lines 849-860)

```
do
{
    memset(&page, 0, sizeof(page));
    errbuf[0] = '\0';
    if (CURLE_OK == (err = curl_easy_perform(easyhandle)))
        break;
    zbx_free(page.data);
}
while (0 < --httptest->httptest.retries);
```

`outcomes` lists the results the server would give to successive perform
attempts (`true` = `CURLE_OK`); a missing entry means failure.  The result is
(success-flag, number-of-perform-attempts, remaining retries).  The recursion
is driven by a fuel argument equal to `retries.toNat`: each failed iteration
decrements `retries` by exactly one, so the fuel never runs out on the paths
the loop can actually take. -/

def retry_perform_go : Nat → Int → List Bool → Bool × Nat × Int
  | 0, retries, outcomes =>
    if outcomes.headD false then (true, 1, retries) else (false, 1, retries - 1)
  | fuel + 1, retries, outcomes =>
    if outcomes.headD false then
      (true, 1, retries)
    else
      let r := retries - 1
      if 0 < r then
        let k := retry_perform_go fuel r outcomes.tail
        (k.1, k.2.1 + 1, k.2.2)
      else
        (false, 1, r)

def retry_perform (retries : Int) (outcomes : List Bool) : Bool × Nat × Int :=
  retry_perform_go retries.toNat retries outcomes

/-! ## XML helper object (zbxembed/xml.c)

The duktape script-engine primitives used by `es_xml_create_object` are
modelled as a small value-stack machine over a global scope; the two native
functions of interest appear as tags. -/

inductive XmlNative
  | ctorFn
  | queryFn
  | fromJsonFn
  | toJsonFn
deriving DecidableEq

inductive DukValue
  /-- a native C function together with its `prototype` property's own
  properties -/
  | cfunction (fn : XmlNative) (protoProps : List (String × XmlNative))
  /-- a plain object: own properties, then the properties of its internal
  prototype -/
  | object (props : List (String × XmlNative)) (protoProps : List (String × XmlNative))
deriving DecidableEq

structure DukCtx where
  stack : List DukValue
  global : List (String × DukValue)
deriving DecidableEq

inductive CtorResult
  | typeError
  | ok
deriving DecidableEq

/-- `es_xml_ctor` (xml.c lines 33-43): rejects a plain (non-`new`) call with
`DUK_RET_TYPE_ERROR`; as a constructor it only installs a finalizer on `this`
and returns 0. -/
def es_xml_ctor (is_constructor_call : Bool) : CtorResult :=
  if !is_constructor_call then CtorResult.typeError else CtorResult.ok

/-- `xml_methods` (xml.c lines 132-137). -/
def xml_methods : List (String × XmlNative) :=
  [("query", XmlNative.queryFn), ("fromJson", XmlNative.fromJsonFn), ("toJson", XmlNative.toJsonFn)]

def duk_push_c_function (ctx : DukCtx) (fn : XmlNative) : DukCtx :=
  { ctx with stack := DukValue.cfunction fn [] :: ctx.stack }

def duk_push_object (ctx : DukCtx) : DukCtx :=
  { ctx with stack := DukValue.object [] [] :: ctx.stack }

def duk_put_function_list (ctx : DukCtx) (fns : List (String × XmlNative)) : DukCtx :=
  match ctx.stack with
  | DukValue.object props protoProps :: rest =>
    { ctx with stack := DukValue.object (props ++ fns) protoProps :: rest }
  | _ => ctx

/-- `duk_put_prop_string(ctx, -2, "prototype")`: pops the object on top and
stores it as the `prototype` property of the function below it. -/
def duk_put_prop_string_prototype (ctx : DukCtx) : DukCtx × Bool :=
  match ctx.stack with
  | DukValue.object props _ :: DukValue.cfunction fn _ :: rest =>
    ({ ctx with stack := DukValue.cfunction fn props :: rest }, true)
  | _ => (ctx, false)

/-- `duk_new(ctx, 0)`: pops the constructor function, runs `es_xml_ctor` as a
constructor call, and pushes the new instance, whose internal prototype is the
function's `prototype` property. -/
def duk_new0 (ctx : DukCtx) : DukCtx :=
  match ctx.stack with
  | DukValue.cfunction _ protoProps :: rest =>
    match es_xml_ctor true with
    | CtorResult.ok => { ctx with stack := DukValue.object [] protoProps :: rest }
    | CtorResult.typeError => { ctx with stack := rest }
  | _ => ctx

def duk_put_global_string (ctx : DukCtx) (name : String) : DukCtx × Bool :=
  match ctx.stack with
  | v :: rest => ({ stack := rest, global := ctx.global ++ [(name, v)] }, true)
  | [] => (ctx, false)

/-- `es_xml_create_object` (xml.c lines 139-155). -/
def es_xml_create_object (ctx : DukCtx) : DukCtx × Bool :=
  let c1 := duk_push_c_function ctx XmlNative.ctorFn
  let c2 := duk_push_object c1
  let c3 := duk_put_function_list c2 xml_methods
  let p := duk_put_prop_string_prototype c3
  if p.2 = false then
    (p.1, false)
  else
    let c5 := duk_new0 p.1
    let g := duk_put_global_string c5 "XML"
    if g.2 = false then (g.1, false) else (g.1, true)

/-- JavaScript property lookup on an instance: own properties first, then the
prototype chain (one level suffices for this object shape). -/
def get_prop (v : DukValue) (name : String) : Option XmlNative :=
  match v with
  | DukValue.object props protoProps =>
    match props.lookup name with
    | some f => some f
    | none => protoProps.lookup name
  | DukValue.cfunction _ _ => none

/-! ## Data model for `process_httptest` (httptest.c lines 609-1005)

The DB rows and the behaviour of the external collaborators are the inputs of
the model; the engine's control flow is translated statement by statement. -/

/-- External collaborators consumed by the engine (macro substitution service,
`zbx_is_time_suffix`, `zbx_int_in_list`, `zbx_regexp_match`); the engine only
routes their outputs. -/
structure ZbxExt where
  substCommon : String → String
  substMaskedField : String → String
  isTimeSuffix : String → Option Int
  intInList : String → Int → Bool
  regexpMatch : String → String → Bool

/-- One row of the `httpstep` select (httptest.c lines 629-635, 691-743). -/
structure DbHttpStep where
  httpstepid : Nat
  no : Int
  name : String
  url : String
  timeout : String
  posts : String
  required : String
  status_codes : String
  post_type : Int
  follow_redirects : Int
  retrieve_mode : Int
deriving DecidableEq

/-- What the world outside the engine does for one step: the result of
`httpstep_load_pairs` (DB fields, URL encoding, punycode), of
`zbx_http_prepare_auth`, of the successive `curl_easy_perform` attempts, of
the three `curl_easy_getinfo` calls, and of `http_process_variables`. -/
structure StepWorld where
  load_ok : Bool
  loaded_url : String
  loaded_headers : String
  step_vars : List (String × String)
  auth_ok : Bool
  auth_err : String
  performs : List Bool
  perform_err : String
  perform_errbuf : String
  page : String
  info_rspcode : Option Int
  info_rspcode_err : String
  info_time : Option Rat
  info_time_err : String
  info_speed : Option Rat
  info_speed_err : String
  scenario_vars_ok : Bool
  step_vars_ok : Bool
  var_err : String

/-- `zbx_httpstat_t` (httptest.c lines 31-37), zero-filled by the
`memset(&stat, 0, sizeof(stat))` at line 745. -/
structure Stat where
  rspcode : Int
  total_time : Rat
  speed_download : Rat
deriving DecidableEq

def Stat.zero : Stat := ⟨0, 0, 0⟩

/-- Observable record of one executed loop iteration of the step loop. -/
structure StepTrace where
  no : Int
  httpstepid : Nat
  /-- the iteration reached the `curl_easy_perform` retry loop -/
  performed : Bool
  /-- number of `curl_easy_perform` calls made for this step -/
  attempts : Nat
  /-- the retry loop ended with `CURLE_OK` -/
  success : Bool
  retries_before : Int
  retries_after : Int
  /-- contents of the `headers_slist` handed to `CURLOPT_HTTPHEADER` -/
  headers_used : List String
  /-- the `header_cookie` handed to `CURLOPT_COOKIE` -/
  cookie : Option String
  stat : Stat
  /-- `CURLINFO_SPEED_DOWNLOAD` was fetched successfully -/
  speed_fetched : Bool
  /-- `err_str` was already non-NULL when the speed fetch was evaluated -/
  err_before_speed : Bool
  /-- this step entered the `speed_download += ...; speed_download_num++` branch -/
  speed_counted : Bool
  err : Option String
deriving DecidableEq

structure StepRun where
  trace : StepTrace
  sum_add : Rat
  num_add : Nat
  step_data_call : Option Stat
deriving DecidableEq

/-- Outcome of the post-perform evaluation chain (httptest.c lines 864-941). -/
structure EvalOut where
  stat : Stat
  err : Option String
  sum_add : Rat
  counted : Bool
  speed_fetched : Bool
  err_before_speed : Bool
deriving DecidableEq

/-- httptest.c lines 871-898: the three `curl_easy_getinfo` fetches of the
`CURLE_OK == err` branch, with the status-code list check and the
download-speed accumulation.  Note the condition of the speed branch,
`CURLE_OK != getinfo(SPEED_DOWNLOAD) && NULL == err_str`: a failed speed
fetch with an error already recorded still enters the `else` accumulation
branch, contributing the zero-filled `stat.speed_download`. -/
def eval_metrics (E : ZbxExt) (status_codes : String) (w : StepWorld) : EvalOut :=
  let s1 : Stat × Option String :=
    match w.info_rspcode with
    | none => (Stat.zero, some w.info_rspcode_err)
    | some c =>
      if status_codes ≠ "" ∧ E.intInList status_codes c = false then
        ({ Stat.zero with rspcode := c },
          some ("response code \"" ++ toString c ++
            "\" did not match any of the required status codes \"" ++ status_codes ++ "\""))
      else
        ({ Stat.zero with rspcode := c }, none)
  let s2 : Stat × Option String :=
    match w.info_time with
    | none => (s1.1, if s1.2 = none then some w.info_time_err else s1.2)
    | some t => ({ s1.1 with total_time := t }, s1.2)
  match w.info_speed with
  | some sp => ⟨{ s2.1 with speed_download := sp }, s2.2, sp, true, true, s2.2.isSome⟩
  | none =>
    if s2.2 = none then ⟨s2.1, some w.info_speed_err, 0, false, false, false⟩
    else ⟨s2.1, s2.2, 0, true, false, true⟩

/-- httptest.c lines 864-941 (the `CURLE_OK == err` branch after the retry
loop): metric fetches followed by the required pattern, scenario variables and
step variables checks; each later check runs only while `err_str` is NULL. -/
def evaluate_response (E : ZbxExt) (status_codes required wire_url : String)
    (test_vars step_vars : List (String × String)) (w : StepWorld) : EvalOut :=
  let m := eval_metrics E status_codes w
  let e4 :=
    if m.err = none ∧ required ≠ "" ∧ E.regexpMatch w.page required = false then
      some ("required pattern \"" ++ required ++ "\" was not found on " ++ wire_url)
    else m.err
  let e5 :=
    if e4 = none ∧ w.scenario_vars_ok = false then
      some ("error in scenario variables \"" ++ pairs_join "=" " " test_vars ++ "\": " ++ w.var_err)
    else e4
  let e6 :=
    if e5 = none ∧ w.step_vars_ok = false then
      some ("error in step variables \"" ++ pairs_join "=" " " step_vars ++ "\": " ++ w.var_err)
    else e5
  { m with err := e6 }

/-- An iteration that takes a `goto httpstep_error` before the header lists
are assembled (load failure, invalid or out-of-bounds timeout). -/
def step_fail_early (row : DbHttpStep) (retries : Int) (e : String) : StepRun :=
  ⟨⟨row.no, row.httpstepid, false, 0, false, retries, retries, [], none,
    Stat.zero, false, false, false, some e⟩, 0, 0, none⟩

/-- An iteration that takes a `goto httpstep_error` after the header lists
were assembled and handed to curl (invalid retrieve mode, auth failure). -/
def step_fail_after_headers (row : DbHttpStep) (retries : Int) (ho : HeadersOut) (e : String) : StepRun :=
  ⟨⟨row.no, row.httpstepid, false, 0, false, retries, retries, ho.headers_slist, ho.header_cookie,
    Stat.zero, false, false, false, some e⟩, 0, 0, none⟩

/-- One iteration of the step loop of `process_httptest`
(httptest.c lines 681-966), for the step row fetched in this iteration. -/
def process_step (E : ZbxExt) (test_headers : String) (test_vars : List (String × String))
    (retries : Int) (row : DbHttpStep) (w : StepWorld) : StepRun :=
  let required := E.substMaskedField row.required
  let status_codes := E.substCommon row.status_codes
  if w.load_ok = false then
    step_fail_early row retries "cannot load web scenario step data"
  else
    let tbuf := E.substCommon row.timeout
    match E.isTimeSuffix tbuf with
    | none => step_fail_early row retries ("timeout \"" ++ tbuf ++ "\" is invalid")
    | some t =>
      if t < 1 ∨ SEC_PER_HOUR < t then
        step_fail_early row retries ("timeout \"" ++ tbuf ++ "\" is out of 1-3600 seconds bounds")
      else
        -- headers defined in a step overwrite headers defined in scenario
        let ho : HeadersOut :=
          if w.loaded_headers ≠ "" then add_http_headers w.loaded_headers
          else if test_headers ≠ "" then add_http_headers test_headers
          else ⟨[], none⟩
        if ¬ (row.retrieve_mode = ZBX_RETRIEVE_MODE_CONTENT ∨
              row.retrieve_mode = ZBX_RETRIEVE_MODE_BOTH ∨
              row.retrieve_mode = ZBX_RETRIEVE_MODE_HEADERS) then
          step_fail_after_headers row retries ho "invalid retrieve mode"
        else if w.auth_ok = false then
          step_fail_after_headers row retries ho w.auth_err
        else
          let k := retry_perform retries w.performs
          if k.1 then
            let ev := evaluate_response E status_codes required w.loaded_url test_vars w.step_vars w
            ⟨⟨row.no, row.httpstepid, true, k.2.1, true, retries, k.2.2, ho.headers_slist, ho.header_cookie,
              ev.stat, ev.speed_fetched, ev.err_before_speed, ev.counted, ev.err⟩,
              ev.sum_add, if ev.counted then 1 else 0, some ev.stat⟩
          else
            ⟨⟨row.no, row.httpstepid, true, k.2.1, false, retries, k.2.2, ho.headers_slist, ho.header_cookie,
              Stat.zero, false, false, false,
              some (w.perform_err ++ ": " ++ w.perform_errbuf)⟩, 0, 0, none⟩

/-- `httptest` row fields used by `process_httptest`. -/
structure HttpTestRow where
  httptestid : Nat
  name : String
  delay : String
  retries : Int

/-- One test execution's environment: the test row, the output of
`httptest_load_pairs` (joined test-scope headers, test-scope variables), the
step rows with their worlds, the `ZBX_IS_RUNNING` flag before each step
fetch, and the session-scoped driver initialisation results. -/
structure TestEnv where
  test : HttpTestRow
  test_headers : String
  test_vars : List (String × String)
  steps : List (DbHttpStep × StepWorld)
  running : Nat → Bool
  curl_init_ok : Bool
  ssl_ok : Bool
  ssl_err : String

structure RunOut where
  traces : List StepTrace
  step_calls : List (Nat × Stat)
  retries : Int
  sum : Rat
  num : Nat
  err : Option String
  lfs : Int
deriving DecidableEq

/-- The step loop (httptest.c lines 681-967): fetch rows in order while
`ZBX_IS_RUNNING`, run each step, accumulate the speed sum/count, and on the
first step error record `lastfailedstep = db_httpstep.no` and break. -/
def run_steps (E : ZbxExt) (env : TestEnv) : List (DbHttpStep × StepWorld) → Nat → Int → RunOut
  | [], _, retries => ⟨[], [], retries, 0, 0, none, 0⟩
  | (row, w) :: rest, i, retries =>
    if env.running i = false then
      ⟨[], [], retries, 0, 0, none, 0⟩
    else
      let r := process_step E env.test_headers env.test_vars retries row w
      let calls : List (Nat × Stat) :=
        match r.step_data_call with
        | some st => [(row.httpstepid, st)]
        | none => []
      match r.trace.err with
      | some e => ⟨[r.trace], calls, r.trace.retries_after, r.sum_add, r.num_add, some e, r.trace.no⟩
      | none =>
        let k := run_steps E env rest (i + 1) r.trace.retries_after
        ⟨r.trace :: k.traces, calls ++ k.step_calls, k.retries,
          r.sum_add + k.sum, r.num_add + k.num, k.err, k.lfs⟩

/-- The tuple handed to `process_test_data` (httptest.c line 998). -/
structure TestDataCall where
  lastfailedstep : Int
  speed_download : Rat
  err : Option String
deriving DecidableEq

structure TestResult where
  traces : List StepTrace
  step_data_calls : List (Nat × Stat)
  test_data_calls : List TestDataCall
  /-- `lastfailedstep` before the `httptest_error` normalisation -/
  raw_lastfailedstep : Int
  /-- `lastfailedstep` as handed to `process_test_data` -/
  lastfailedstep : Int
  err_str : Option String
  speed : Rat
  speed_num : Nat
  delay_out : Int
  final_retries : Int
deriving DecidableEq

/-- httptest.c lines 974-1002: the `httptest_error` tail of every path.  When
`err_str` is set, `0 >= lastfailedstep` is normalised to `1`; the speed sum is
divided by the count when the count is non-zero; `process_test_data` is called
exactly once with the resulting tuple. -/
def finish_httptest (traces : List StepTrace) (calls : List (Nat × Stat)) (sum : Rat)
    (num : Nat) (err : Option String) (lfs : Int) (delay_out : Int) (retries : Int) : TestResult :=
  let lfs_emit : Int := if err ≠ none then (if lfs ≤ 0 then 1 else lfs) else lfs
  let speed : Rat := if num ≠ 0 then sum / (num : Rat) else sum
  ⟨traces, calls, [⟨lfs_emit, speed, err⟩], lfs, lfs_emit, err, speed, num, delay_out, retries⟩

/-- `process_httptest` (httptest.c lines 609-1005): delay validation, driver
session initialisation, the step loop, and the single final emission. -/
def process_httptest (E : ZbxExt) (env : TestEnv) : TestResult :=
  let buffer := E.substCommon env.test.delay
  match E.isTimeSuffix buffer with
  | none =>
    finish_httptest [] [] 0 0 (some ("update interval \"" ++ buffer ++ "\" is invalid")) (-1)
      ZBX_DEFAULT_INTERVAL env.test.retries
  | some d =>
    if env.curl_init_ok = false then
      finish_httptest [] [] 0 0 (some "cannot initialize cURL library") 0 d env.test.retries
    else if env.ssl_ok = false then
      finish_httptest [] [] 0 0 (some env.ssl_err) 0 d env.test.retries
    else
      let k := run_steps E env env.steps 0 env.test.retries
      finish_httptest k.traces k.step_calls k.sum k.num k.err k.lfs d k.retries

/-- Stated from the spec's words, for comparison with the code: "the
arithmetic mean of per-step speeds for steps that completed with a valid
speed measurement; if none, it is 0". -/
def spec_speed_download (R : TestResult) : Rat :=
  let valid := R.traces.filter (fun t => t.speed_fetched)
  if valid.length = 0 then 0
  else ((valid.map (fun t => t.stat.speed_download)).sum) / (valid.length : Rat)

/-! ## Branch characterisations of `process_httptest` -/

theorem process_httptest_invalid_delay (E : ZbxExt) (env : TestEnv)
    (h : E.isTimeSuffix (E.substCommon env.test.delay) = none) :
    process_httptest E env =
      finish_httptest [] [] 0 0
        (some ("update interval \"" ++ E.substCommon env.test.delay ++ "\" is invalid")) (-1)
        ZBX_DEFAULT_INTERVAL env.test.retries := by
  unfold process_httptest
  dsimp only
  rw [h]

theorem process_httptest_curl_fail (E : ZbxExt) (env : TestEnv) (d : Int)
    (hd : E.isTimeSuffix (E.substCommon env.test.delay) = some d)
    (hc : env.curl_init_ok = false) :
    process_httptest E env =
      finish_httptest [] [] 0 0 (some "cannot initialize cURL library") 0 d env.test.retries := by
  unfold process_httptest
  dsimp only
  rw [hd]
  simp only [hc, if_true]

theorem process_httptest_ssl_fail (E : ZbxExt) (env : TestEnv) (d : Int)
    (hd : E.isTimeSuffix (E.substCommon env.test.delay) = some d)
    (hc : env.curl_init_ok = true) (hs : env.ssl_ok = false) :
    process_httptest E env =
      finish_httptest [] [] 0 0 (some env.ssl_err) 0 d env.test.retries := by
  unfold process_httptest
  dsimp only
  rw [hd]
  simp only [hc, hs, Bool.true_eq_false, if_false, if_true]

theorem process_httptest_main (E : ZbxExt) (env : TestEnv) (d : Int)
    (hd : E.isTimeSuffix (E.substCommon env.test.delay) = some d)
    (hc : env.curl_init_ok = true) (hs : env.ssl_ok = true) :
    process_httptest E env =
      finish_httptest (run_steps E env env.steps 0 env.test.retries).traces
        (run_steps E env env.steps 0 env.test.retries).step_calls
        (run_steps E env env.steps 0 env.test.retries).sum
        (run_steps E env env.steps 0 env.test.retries).num
        (run_steps E env env.steps 0 env.test.retries).err
        (run_steps E env env.steps 0 env.test.retries).lfs d
        (run_steps E env env.steps 0 env.test.retries).retries := by
  unfold process_httptest
  dsimp only
  rw [hd]
  simp only [hc, hs, Bool.true_eq_false, if_false]

theorem finish_httptest_fields (traces : List StepTrace) (calls : List (Nat × Stat)) (sum : Rat)
    (num : Nat) (err : Option String) (lfs : Int) (d : Int) (r : Int) :
    (finish_httptest traces calls sum num err lfs d r).traces = traces ∧
    (finish_httptest traces calls sum num err lfs d r).err_str = err ∧
    (finish_httptest traces calls sum num err lfs d r).raw_lastfailedstep = lfs ∧
    (finish_httptest traces calls sum num err lfs d r).lastfailedstep =
      (if err ≠ none then (if lfs ≤ 0 then 1 else lfs) else lfs) ∧
    (finish_httptest traces calls sum num err lfs d r).speed =
      (if num ≠ 0 then sum / (num : Rat) else sum) ∧
    (finish_httptest traces calls sum num err lfs d r).speed_num = num ∧
    (finish_httptest traces calls sum num err lfs d r).step_data_calls = calls ∧
    (finish_httptest traces calls sum num err lfs d r).delay_out = d ∧
    (finish_httptest traces calls sum num err lfs d r).final_retries = r := by
  unfold finish_httptest
  exact ⟨rfl, rfl, rfl, rfl, rfl, rfl, rfl, rfl, rfl⟩

/-! ## Concrete instantiations used by witnesses and counterexamples -/

/-- A simple concrete `zbx_is_time_suffix`: plain decimal seconds, no suffix. -/
def time_suffix_of_chars : List Char → Nat → Bool → Option Int
  | [], acc, seen => if seen then some (Int.ofNat acc) else none
  | c :: cs, acc, _ =>
    if c.isDigit then time_suffix_of_chars cs (acc * 10 + (c.toNat - 48)) true else none

def simple_time_suffix (s : String) : Option Int :=
  time_suffix_of_chars s.data 0 false

/-- Concrete external collaborators: identity substitutions, decimal delays,
every status-code list matches, every pattern matches. -/
def extId : ZbxExt :=
  { substCommon := fun s => s
    substMaskedField := fun s => s
    isTimeSuffix := simple_time_suffix
    intInList := fun _ _ => true
    regexpMatch := fun _ _ => true }

def benign_world (performs : List Bool) : StepWorld :=
  { load_ok := true
    loaded_url := "http://t/ok"
    loaded_headers := ""
    step_vars := []
    auth_ok := true
    auth_err := ""
    performs := performs
    perform_err := "Could not connect to server"
    perform_errbuf := "connection refused"
    page := "hello world"
    info_rspcode := some 200
    info_rspcode_err := "cannot get the response code"
    info_time := some 1
    info_time_err := "cannot get total time"
    info_speed := some 100
    info_speed_err := "cannot get download speed"
    scenario_vars_ok := true
    step_vars_ok := true
    var_err := "" }

def benign_row (n : Int) : DbHttpStep :=
  { httpstepid := 100 + n.toNat
    no := n
    name := "step"
    url := "http://t/ok"
    timeout := "15"
    posts := ""
    required := ""
    status_codes := ""
    post_type := 0
    follow_redirects := 0
    retrieve_mode := 0 }

def base_env (retries : Int) (steps : List (DbHttpStep × StepWorld)) : TestEnv :=
  { test := { httptestid := 1, name := "t", delay := "60", retries := retries }
    test_headers := ""
    test_vars := []
    steps := steps
    running := fun _ => true
    curl_init_ok := true
    ssl_ok := true
    ssl_err := "" }

/-- retries = 2, the server refuses the first two connection attempts and
would accept the third. -/
def envRetryRefuse : TestEnv :=
  base_env 2 [(benign_row 1, benign_world [false, false, true])]

/-- step 1 succeeds with download speed 100; step 2's perform succeeds but the
response-code fetch fails (recording an error) and the speed fetch fails. -/
def envSpeedSkew : TestEnv :=
  base_env 1
    [(benign_row 1, benign_world [true]),
     (benign_row 2, { benign_world [true] with info_rspcode := none, info_speed := none })]

/-- invalid update interval. -/
def envBadDelay : TestEnv :=
  { base_env 1 [] with test := { httptestid := 1, name := "t", delay := "abc", retries := 1 } }

/-- retries = 3; step 1 needs two perform attempts, step 2 one. -/
def envPersist : TestEnv :=
  base_env 3 [(benign_row 1, benign_world [false, true]), (benign_row 2, benign_world [true])]


/-! ## Lemmas about the retry loop -/

theorem retry_perform_go_spec (fuel : Nat) :
    ∀ (retries : Int) (outcomes : List Bool), retries.toNat ≤ fuel →
      1 ≤ (retry_perform_go fuel retries outcomes).2.1 ∧
      (retry_perform_go fuel retries outcomes).2.1 ≤ max 1 retries.toNat ∧
      (retry_perform_go fuel retries outcomes).2.2 =
        retries - ((retry_perform_go fuel retries outcomes).2.1 : Int) +
          (if (retry_perform_go fuel retries outcomes).1 then 1 else 0) := by
  induction fuel with
  | zero =>
    intro retries outcomes h
    cases hh : outcomes.headD false with
    | true =>
      simp only [retry_perform_go, hh, if_true]
      refine ⟨le_refl 1, ?_, by simp⟩
      omega
    | false =>
      simp only [retry_perform_go, hh, Bool.false_eq_true, if_false]
      refine ⟨le_refl 1, ?_, by simp⟩
      omega
  | succ n ih =>
    intro retries outcomes h
    cases hh : outcomes.headD false with
    | true =>
      simp only [retry_perform_go, hh, if_true]
      refine ⟨le_refl 1, ?_, by simp⟩
      omega
    | false =>
      by_cases hr : (0 : Int) < retries - 1
      · have hn : (retries - 1).toNat ≤ n := by omega
        obtain ⟨h1, h2, h3⟩ := ih (retries - 1) outcomes.tail hn
        simp only [retry_perform_go, hh, Bool.false_eq_true, if_false]
        rw [if_pos hr]
        dsimp only
        cases hk : (retry_perform_go n (retries - 1) outcomes.tail).1 <;>
          simp only [hk, Bool.false_eq_true, if_false, if_true] at h3 ⊢ <;>
          refine ⟨by omega, by omega, by omega⟩
      · simp only [retry_perform_go, hh, Bool.false_eq_true, if_false]
        rw [if_neg hr]
        dsimp only
        refine ⟨le_refl 1, by omega, by simp⟩

theorem retry_perform_spec (retries : Int) (outcomes : List Bool) :
    1 ≤ (retry_perform retries outcomes).2.1 ∧
    (retry_perform retries outcomes).2.1 ≤ max 1 retries.toNat ∧
    (retry_perform retries outcomes).2.2 =
      retries - ((retry_perform retries outcomes).2.1 : Int) +
        (if (retry_perform retries outcomes).1 then 1 else 0) :=
  retry_perform_go_spec retries.toNat retries outcomes le_rfl

/-! ## Lemmas about the per-step evaluation -/

theorem eval_metrics_props (E : ZbxExt) (status_codes : String) (w : StepWorld) :
    (eval_metrics E status_codes w).counted =
      ((eval_metrics E status_codes w).speed_fetched || (eval_metrics E status_codes w).err_before_speed) ∧
    (eval_metrics E status_codes w).sum_add =
      (if (eval_metrics E status_codes w).counted then (eval_metrics E status_codes w).stat.speed_download else 0) := by
  unfold eval_metrics
  cases hr : w.info_rspcode <;> cases ht : w.info_time <;> cases hs : w.info_speed <;>
    dsimp only <;> split_ifs <;> simp_all [Stat.zero]

theorem evaluate_response_props (E : ZbxExt) (status_codes required wire_url : String)
    (test_vars step_vars : List (String × String)) (w : StepWorld) :
    (evaluate_response E status_codes required wire_url test_vars step_vars w).counted =
      ((evaluate_response E status_codes required wire_url test_vars step_vars w).speed_fetched ||
        (evaluate_response E status_codes required wire_url test_vars step_vars w).err_before_speed) ∧
    (evaluate_response E status_codes required wire_url test_vars step_vars w).sum_add =
      (if (evaluate_response E status_codes required wire_url test_vars step_vars w).counted then
        (evaluate_response E status_codes required wire_url test_vars step_vars w).stat.speed_download else 0) := by
  unfold evaluate_response
  dsimp only
  exact eval_metrics_props E status_codes w

theorem step_fail_early_props (row : DbHttpStep) (retries : Int) (e : String) :
    (step_fail_early row retries e).trace.retries_before = retries ∧
    (step_fail_early row retries e).trace.retries_after =
      retries - ((step_fail_early row retries e).trace.attempts : Int) +
        (if (step_fail_early row retries e).trace.success then 1 else 0) ∧
    ((step_fail_early row retries e).trace.performed = true →
      1 ≤ (step_fail_early row retries e).trace.attempts) ∧
    ((step_fail_early row retries e).trace.performed = false →
      (step_fail_early row retries e).trace.attempts = 0) ∧
    (step_fail_early row retries e).sum_add =
      (if (step_fail_early row retries e).trace.speed_counted then
        (step_fail_early row retries e).trace.stat.speed_download else 0) ∧
    (step_fail_early row retries e).num_add =
      (if (step_fail_early row retries e).trace.speed_counted then 1 else 0) ∧
    (step_fail_early row retries e).trace.speed_counted =
      ((step_fail_early row retries e).trace.success &&
        ((step_fail_early row retries e).trace.speed_fetched ||
          (step_fail_early row retries e).trace.err_before_speed)) ∧
    (step_fail_early row retries e).trace.attempts ≤ max 1 retries.toNat := by
  unfold step_fail_early
  exact ⟨rfl, by simp, by simp, fun _ => rfl, by simp, by simp, by simp, by simp⟩

theorem step_fail_after_headers_props (row : DbHttpStep) (retries : Int) (ho : HeadersOut) (e : String) :
    (step_fail_after_headers row retries ho e).trace.retries_before = retries ∧
    (step_fail_after_headers row retries ho e).trace.retries_after =
      retries - ((step_fail_after_headers row retries ho e).trace.attempts : Int) +
        (if (step_fail_after_headers row retries ho e).trace.success then 1 else 0) ∧
    ((step_fail_after_headers row retries ho e).trace.performed = true →
      1 ≤ (step_fail_after_headers row retries ho e).trace.attempts) ∧
    ((step_fail_after_headers row retries ho e).trace.performed = false →
      (step_fail_after_headers row retries ho e).trace.attempts = 0) ∧
    (step_fail_after_headers row retries ho e).sum_add =
      (if (step_fail_after_headers row retries ho e).trace.speed_counted then
        (step_fail_after_headers row retries ho e).trace.stat.speed_download else 0) ∧
    (step_fail_after_headers row retries ho e).num_add =
      (if (step_fail_after_headers row retries ho e).trace.speed_counted then 1 else 0) ∧
    (step_fail_after_headers row retries ho e).trace.speed_counted =
      ((step_fail_after_headers row retries ho e).trace.success &&
        ((step_fail_after_headers row retries ho e).trace.speed_fetched ||
          (step_fail_after_headers row retries ho e).trace.err_before_speed)) ∧
    (step_fail_after_headers row retries ho e).trace.attempts ≤ max 1 retries.toNat := by
  unfold step_fail_after_headers
  exact ⟨rfl, by simp, by simp, fun _ => rfl, by simp, by simp, by simp, by simp⟩

set_option maxHeartbeats 2000000 in
theorem process_step_props (E : ZbxExt) (th : String) (tv : List (String × String))
    (retries : Int) (row : DbHttpStep) (w : StepWorld) :
    (process_step E th tv retries row w).trace.retries_before = retries ∧
    (process_step E th tv retries row w).trace.retries_after =
      retries - ((process_step E th tv retries row w).trace.attempts : Int) +
        (if (process_step E th tv retries row w).trace.success then 1 else 0) ∧
    ((process_step E th tv retries row w).trace.performed = true →
      1 ≤ (process_step E th tv retries row w).trace.attempts) ∧
    ((process_step E th tv retries row w).trace.performed = false →
      (process_step E th tv retries row w).trace.attempts = 0) ∧
    (process_step E th tv retries row w).sum_add =
      (if (process_step E th tv retries row w).trace.speed_counted then
        (process_step E th tv retries row w).trace.stat.speed_download else 0) ∧
    (process_step E th tv retries row w).num_add =
      (if (process_step E th tv retries row w).trace.speed_counted then 1 else 0) ∧
    (process_step E th tv retries row w).trace.speed_counted =
      ((process_step E th tv retries row w).trace.success &&
        ((process_step E th tv retries row w).trace.speed_fetched ||
          (process_step E th tv retries row w).trace.err_before_speed)) ∧
    (process_step E th tv retries row w).trace.attempts ≤ max 1 retries.toNat := by
  have hretry := retry_perform_spec retries w.performs
  have hev := evaluate_response_props E (E.substCommon row.status_codes)
    (E.substMaskedField row.required) w.loaded_url tv w.step_vars w
  unfold process_step
  dsimp only
  split
  · exact step_fail_early_props row retries _
  · split
    · exact step_fail_early_props row retries _
    · split
      · exact step_fail_early_props row retries _
      · split
        · exact step_fail_after_headers_props row retries _ _
        · split
          · exact step_fail_after_headers_props row retries _ _
          · split
            next hk =>
              dsimp only
              obtain ⟨ha1, ha2, ha3⟩ := hretry
              rw [hk] at ha3
              refine ⟨rfl, by simpa using ha3, fun _ => ha1, by simp, hev.2, rfl, ?_, ha2⟩
              simpa using hev.1
            next hk =>
              dsimp only
              obtain ⟨ha1, ha2, ha3⟩ := hretry
              rw [Bool.not_eq_true] at hk
              rw [hk] at ha3
              refine ⟨rfl, by simpa using ha3, fun _ => ha1, by simp, by simp, by simp, by simp, ha2⟩

theorem process_step_no (E : ZbxExt) (th : String) (tv : List (String × String))
    (retries : Int) (row : DbHttpStep) (w : StepWorld) :
    (process_step E th tv retries row w).trace.no = row.no := by
  unfold process_step step_fail_early step_fail_after_headers
  dsimp only
  split
  · rfl
  · split
    · rfl
    · split
      · rfl
      · split
        · rfl
        · split
          · rfl
          · split
            · rfl
            · rfl

/-- The retry budget threaded through the traces of one test execution: each
step starts with the budget the previous step left behind (the in-place
`--httptest->httptest.retries` decrements), and one unit is consumed per
failed perform attempt. -/
def retries_chain : Int → List StepTrace → Prop
  | _, [] => True
  | r, t :: ts =>
    t.retries_before = r ∧
    t.retries_after = t.retries_before - (t.attempts : Int) + (if t.success then 1 else 0) ∧
    retries_chain t.retries_after ts

/-! ## Lemmas about the step loop -/

theorem run_steps_err_none (E : ZbxExt) (env : TestEnv) :
    ∀ (l : List (DbHttpStep × StepWorld)) (i : Nat) (retries : Int),
      (run_steps E env l i retries).err = none →
      (run_steps E env l i retries).lfs = 0 ∧
      ∀ t ∈ (run_steps E env l i retries).traces, t.err = none := by
  intro l
  induction l with
  | nil =>
    intro i retries _
    exact ⟨rfl, by simp [run_steps]⟩
  | cons p rest ih =>
    intro i retries h
    obtain ⟨row, w⟩ := p
    by_cases hrun : env.running i = false
    · simp [run_steps, hrun]
    · cases herr : (process_step E env.test_headers env.test_vars retries row w).trace.err with
      | some e =>
        rw [run_steps] at h
        simp [hrun, herr] at h
      | none =>
        rw [run_steps] at h ⊢
        simp only [hrun, herr] at h ⊢
        simp only [Bool.true_eq_false, if_false] at h ⊢
        obtain ⟨h1, h2⟩ := ih (i + 1) _ h
        refine ⟨h1, ?_⟩
        intro t ht
        rcases List.mem_cons.mp ht with hteq | htm
        · rw [hteq]; exact herr
        · exact h2 t htm

theorem run_steps_err_mem (E : ZbxExt) (env : TestEnv) :
    ∀ (l : List (DbHttpStep × StepWorld)) (i : Nat) (retries : Int),
      ∀ t ∈ (run_steps E env l i retries).traces, t.err ≠ none →
        (run_steps E env l i retries).err = t.err ∧
        (run_steps E env l i retries).lfs = t.no := by
  intro l
  induction l with
  | nil =>
    intro i retries t ht
    simp [run_steps] at ht
  | cons p rest ih =>
    intro i retries t ht hne
    obtain ⟨row, w⟩ := p
    by_cases hrun : env.running i = false
    · rw [run_steps] at ht
      simp [hrun] at ht
    · cases herr : (process_step E env.test_headers env.test_vars retries row w).trace.err with
      | some e =>
        rw [run_steps] at ht ⊢
        simp only [hrun, herr] at ht ⊢
        simp only [Bool.true_eq_false, if_false] at ht ⊢
        simp only [List.mem_singleton] at ht
        rw [ht]
        exact ⟨herr.symm, rfl⟩
      | none =>
        rw [run_steps] at ht ⊢
        simp only [hrun, herr] at ht ⊢
        simp only [Bool.true_eq_false, if_false] at ht ⊢
        rcases List.mem_cons.mp ht with hteq | htm
        · rw [hteq] at hne
          exact absurd herr hne
        · exact ih (i + 1) _ t htm hne

theorem run_steps_no_ge_one (E : ZbxExt) (env : TestEnv) :
    ∀ (l : List (DbHttpStep × StepWorld)) (i : Nat) (retries : Int),
      (∀ s ∈ l, 1 ≤ s.1.no) →
      ∀ t ∈ (run_steps E env l i retries).traces, 1 ≤ t.no := by
  intro l
  induction l with
  | nil =>
    intro i retries _ t ht
    simp [run_steps] at ht
  | cons p rest ih =>
    intro i retries hl t ht
    obtain ⟨row, w⟩ := p
    by_cases hrun : env.running i = false
    · rw [run_steps] at ht
      simp [hrun] at ht
    · cases herr : (process_step E env.test_headers env.test_vars retries row w).trace.err with
      | some e =>
        rw [run_steps] at ht
        simp only [hrun, herr] at ht
        simp only [Bool.true_eq_false, if_false] at ht
        simp only [List.mem_singleton] at ht
        rw [ht, process_step_no]
        exact hl (row, w) (List.mem_cons_self _ _)
      | none =>
        rw [run_steps] at ht
        simp only [hrun, herr] at ht
        simp only [Bool.true_eq_false, if_false] at ht
        rcases List.mem_cons.mp ht with hteq | htm
        · rw [hteq, process_step_no]
          exact hl (row, w) (List.mem_cons_self _ _)
        · exact ih (i + 1) _ (fun s hs => hl s (List.mem_cons_of_mem _ hs)) t htm

theorem run_steps_chain (E : ZbxExt) (env : TestEnv) :
    ∀ (l : List (DbHttpStep × StepWorld)) (i : Nat) (retries : Int),
      retries_chain retries (run_steps E env l i retries).traces := by
  intro l
  induction l with
  | nil =>
    intro i retries
    simp [run_steps, retries_chain]
  | cons p rest ih =>
    intro i retries
    obtain ⟨row, w⟩ := p
    obtain ⟨hp1, hp2, _⟩ := process_step_props E env.test_headers env.test_vars retries row w
    by_cases hrun : env.running i = false
    · rw [run_steps]
      simp [hrun, retries_chain]
    · cases herr : (process_step E env.test_headers env.test_vars retries row w).trace.err with
      | some e =>
        rw [run_steps]
        simp only [hrun, herr]
        simp only [Bool.true_eq_false, if_false]
        exact ⟨by rw [hp1], by rw [hp1]; exact hp2, trivial⟩
      | none =>
        rw [run_steps]
        simp only [hrun, herr]
        simp only [Bool.true_eq_false, if_false]
        exact ⟨by rw [hp1], by rw [hp1]; exact hp2, ih (i + 1) _⟩

theorem run_steps_trace_props (E : ZbxExt) (env : TestEnv) :
    ∀ (l : List (DbHttpStep × StepWorld)) (i : Nat) (retries : Int),
      ∀ t ∈ (run_steps E env l i retries).traces,
        (t.performed = true → 1 ≤ t.attempts) ∧
        (t.performed = false → t.attempts = 0) ∧
        t.speed_counted = (t.success && (t.speed_fetched || t.err_before_speed)) := by
  intro l
  induction l with
  | nil =>
    intro i retries t ht
    simp [run_steps] at ht
  | cons p rest ih =>
    intro i retries t ht
    obtain ⟨row, w⟩ := p
    obtain ⟨_, _, hp3, hp4, _, _, hp7, _⟩ := process_step_props E env.test_headers env.test_vars retries row w
    by_cases hrun : env.running i = false
    · rw [run_steps] at ht
      simp [hrun] at ht
    · cases herr : (process_step E env.test_headers env.test_vars retries row w).trace.err with
      | some e =>
        rw [run_steps] at ht
        simp only [hrun, herr] at ht
        simp only [Bool.true_eq_false, if_false] at ht
        simp only [List.mem_singleton] at ht
        rw [ht]
        exact ⟨hp3, hp4, hp7⟩
      | none =>
        rw [run_steps] at ht
        simp only [hrun, herr] at ht
        simp only [Bool.true_eq_false, if_false] at ht
        rcases List.mem_cons.mp ht with hteq | htm
        · rw [hteq]
          exact ⟨hp3, hp4, hp7⟩
        · exact ih (i + 1) _ t htm

theorem run_steps_speed (E : ZbxExt) (env : TestEnv) :
    ∀ (l : List (DbHttpStep × StepWorld)) (i : Nat) (retries : Int),
      (run_steps E env l i retries).sum =
        (((run_steps E env l i retries).traces.filter (fun t => t.speed_counted)).map
          (fun t => t.stat.speed_download)).sum ∧
      (run_steps E env l i retries).num =
        ((run_steps E env l i retries).traces.filter (fun t => t.speed_counted)).length := by
  intro l
  induction l with
  | nil =>
    intro i retries
    simp [run_steps]
  | cons p rest ih =>
    intro i retries
    obtain ⟨row, w⟩ := p
    obtain ⟨_, _, _, _, hp5, hp6, _, _⟩ := process_step_props E env.test_headers env.test_vars retries row w
    by_cases hrun : env.running i = false
    · rw [run_steps]
      simp [hrun]
    · cases herr : (process_step E env.test_headers env.test_vars retries row w).trace.err with
      | some e =>
        rw [run_steps]
        simp only [hrun, herr]
        simp only [Bool.true_eq_false, if_false]
        cases hc : (process_step E env.test_headers env.test_vars retries row w).trace.speed_counted <;>
          simp [hc, hp5, hp6]
      | none =>
        rw [run_steps]
        simp only [hrun, herr]
        simp only [Bool.true_eq_false, if_false]
        obtain ⟨ih1, ih2⟩ := ih (i + 1) ((process_step E env.test_headers env.test_vars retries row w).trace.retries_after)
        cases hc : (process_step E env.test_headers env.test_vars retries row w).trace.speed_counted <;>
          simp [hc, hp5, hp6, ih1, ih2]
        omega

/-! ## Lemmas about the URL composer -/

theorem truncate_no_hash (cs : List Char) : contains_char (truncate_at_hash cs) '#' = false := by
  induction cs with
  | nil => rfl
  | cons c cs ih =>
    by_cases hc : c = '#' <;> simp [truncate_at_hash, contains_char, hc, ih]

theorem truncate_split (cs : List Char) :
    contains_char cs '#' = true → ∃ rest, cs = truncate_at_hash cs ++ '#' :: rest := by
  induction cs with
  | nil => intro h; simp [contains_char] at h
  | cons c cs ih =>
    intro h
    by_cases hc : c = '#'
    · exact ⟨cs, by simp [truncate_at_hash, hc]⟩
    · simp only [contains_char] at h
      rw [decide_eq_false hc, Bool.false_or] at h
      obtain ⟨r, hr⟩ := ih h
      refine ⟨r, ?_⟩
      simp only [truncate_at_hash, hc, if_false, List.cons_append]
      exact congrArg (List.cons c) hr

theorem truncate_id (cs : List Char) :
    contains_char cs '#' = false → truncate_at_hash cs = cs := by
  induction cs with
  | nil => intro _; rfl
  | cons c cs ih =>
    intro h
    simp only [contains_char, Bool.or_eq_false_iff, decide_eq_false_iff_not] at h
    simp [truncate_at_hash, h.1, ih h.2]

theorem intercalate_go_append (sep a b : String) (l : List String) :
    String.intercalate.go (a ++ b) sep l = a ++ String.intercalate.go b sep l := by
  induction l generalizing b with
  | nil => rfl
  | cons x xs ih =>
    have h1 : ((a ++ b) ++ sep) ++ x = a ++ (((b ++ sep)) ++ x) := by
      simp [String.append_assoc]
    show String.intercalate.go (a ++ b ++ sep ++ x) sep xs = a ++ String.intercalate.go (b ++ sep ++ x) sep xs
    rw [h1]
    exact ih ((b ++ sep) ++ x)

theorem pairs_join_intercalate (qf : List (String × String)) :
    pairs_join "=" "&" qf =
      String.intercalate "&" (qf.map (fun p => p.1 ++ "=" ++ p.2)) := by
  induction qf with
  | nil => rfl
  | cons p rest ih =>
    cases rest with
    | nil => rfl
    | cons q t =>
      show (p.1 ++ "=" ++ p.2) ++ "&" ++ pairs_join "=" "&" (q :: t) =
        String.intercalate.go ((p.1 ++ "=" ++ p.2) ++ "&" ++ (q.1 ++ "=" ++ q.2)) "&"
          (t.map (fun p => p.1 ++ "=" ++ p.2))
      rw [ih]
      rw [intercalate_go_append "&" ((p.1 ++ "=" ++ p.2) ++ "&") (q.1 ++ "=" ++ q.2)
        (t.map (fun p => p.1 ++ "=" ++ p.2))]
      rfl

/-! ## Lemmas about the header assembler -/

theorem getLast?_cons_some {α : Type} (a x : α) (xs : List α) (h : xs.getLast? = some x) :
    (a :: xs).getLast? = some x := by
  cases xs with
  | nil => simp at h
  | cons b ys => rw [List.getLast?_cons_cons]; exact h

theorem getLast?_cons_ne_none {α : Type} (b : α) (ys : List α) : (b :: ys).getLast? ≠ none := by
  induction ys generalizing b with
  | nil => simp
  | cons c zs ih => rw [List.getLast?_cons_cons]; exact ih c

theorem getLast?_cons_none {α : Type} (a : α) (xs : List α) (h : xs.getLast? = none) :
    (a :: xs).getLast? = some a := by
  cases xs with
  | nil => rfl
  | cons b ys => exact absurd h (getLast?_cons_ne_none b ys)

theorem add_go_slist (lines : List String) :
    ∀ (slist : List String) (cookie : Option String),
      (add_http_headers_go lines slist cookie).headers_slist =
        slist ++ lines.filter (fun l => !is_cookie_line l) := by
  induction lines with
  | nil => intro slist cookie; simp [add_http_headers_go]
  | cons l ls ih =>
    intro slist cookie
    by_cases hl : is_cookie_line l
    · simp [add_http_headers_go, hl, ih]
    · simp [add_http_headers_go, hl, ih]

theorem add_go_cookie (lines : List String) :
    ∀ (slist : List String) (cookie : Option String),
      (add_http_headers_go lines slist cookie).header_cookie =
        match (lines.filter (fun l => is_cookie_line l)).getLast? with
        | some l => some (cookie_rest l)
        | none => cookie := by
  induction lines with
  | nil => intro slist cookie; rfl
  | cons l ls ih =>
    intro slist cookie
    by_cases hl : is_cookie_line l
    · rw [add_http_headers_go, if_pos hl, ih]
      have hfil : (l :: ls).filter (fun x => is_cookie_line x) =
          l :: ls.filter (fun x => is_cookie_line x) := by
        simp [List.filter, hl]
      rw [hfil]
      cases hlast : (ls.filter (fun x => is_cookie_line x)).getLast? with
      | some x => rw [getLast?_cons_some l x _ hlast]
      | none => rw [getLast?_cons_none l _ hlast]
    · rw [add_http_headers_go, if_neg hl, ih]
      have hfil : (l :: ls).filter (fun x => is_cookie_line x) =
          ls.filter (fun x => is_cookie_line x) := by
        simp [List.filter, hl]
      rw [hfil]

/-! ## Claim theorems -/

/-- Claim C10: for every headers string processed by the header assembler, no
line beginning with the exact case-sensitive `Cookie:` front piece is added to
the driver's header list (the list is exactly the non-cookie lines, in
order), and the cookie value handed to the driver is the remainder after the
front piece of the last such line, earlier ones being overwritten. -/
theorem c10_cookie_header_special_case (headers : String) :
    (add_http_headers headers).headers_slist =
      (parse_header_lines headers).filter (fun l => !is_cookie_line l) ∧
    (add_http_headers headers).header_cookie =
      ((parse_header_lines headers).filter (fun l => is_cookie_line l)).getLast?.map cookie_rest := by
  constructor
  · rw [add_http_headers, add_go_slist]
    simp
  · rw [add_http_headers, add_go_cookie]
    cases ((parse_header_lines headers).filter (fun l => is_cookie_line l)).getLast? <;> rfl

/-- Claim C8: calling the XML constructor as a plain function (without `new`)
fails with a type error, while constructor invocation during engine
initialisation installs the XML singleton, with its query/fromJson/toJson
methods reachable through its prototype, under the name `XML` on the global
scope. -/
theorem c8_xml_ctor_and_singleton :
    es_xml_ctor false = CtorResult.typeError ∧
    (es_xml_create_object ⟨[], []⟩).2 = true ∧
    (es_xml_create_object ⟨[], []⟩).1.global =
      [("XML", DukValue.object [] xml_methods)] ∧
    get_prop (DukValue.object [] xml_methods) "query" = some XmlNative.queryFn ∧
    get_prop (DukValue.object [] xml_methods) "fromJson" = some XmlNative.fromJsonFn ∧
    get_prop (DukValue.object [] xml_methods) "toJson" = some XmlNative.toJsonFn := by
  refine ⟨rfl, rfl, rfl, rfl, rfl, rfl⟩

/-- Claim C6: the wire URL is the step URL truncated at (and not including)
the first `#`; when query fields exist they are appended in insertion order
as `k1=v1&k2=v2&...` behind `?` when the truncated URL has no `?` yet and
behind `&` otherwise; in particular `http://t/p?x=1#frag` with the single
query field `("y","2")` yields `http://t/p?x=1&y=2`. -/
theorem c6_wire_url (url : String) (qf : List (String × String)) :
    (qf ≠ [] → compose_wire_url url qf =
      strip_fragment url ++ (if url_has_query (strip_fragment url) then "&" else "?") ++
        String.intercalate "&" (qf.map (fun p => p.1 ++ "=" ++ p.2))) ∧
    (qf = [] → compose_wire_url url qf = strip_fragment url) ∧
    contains_char (strip_fragment url).data '#' = false ∧
    (contains_char url.data '#' = true →
      ∃ rest, url.data = (strip_fragment url).data ++ '#' :: rest) ∧
    (contains_char url.data '#' = false → strip_fragment url = url) ∧
    compose_wire_url "http://t/p?x=1#frag" [("y", "2")] = "http://t/p?x=1&y=2" := by
  refine ⟨?_, ?_, ?_, ?_, ?_, by decide⟩
  · intro hqf
    rw [compose_wire_url]
    have hlen : 0 < qf.length := List.length_pos.mpr hqf
    rw [if_pos hlen]
    dsimp only
    rw [pairs_join_intercalate, String.append_assoc]
  · intro hqf
    subst hqf
    rfl
  · show contains_char (truncate_at_hash url.data) '#' = false
    exact truncate_no_hash url.data
  · intro h
    exact truncate_split url.data h
  · intro h
    show String.mk (truncate_at_hash url.data) = url
    rw [truncate_id url.data h]

/-- Witness for claim C6 at a concrete URL and query-field list. -/
theorem c6_wire_url_witness :
    compose_wire_url "http://t/a#b" [("k", "v")] =
      strip_fragment "http://t/a#b" ++
        (if url_has_query (strip_fragment "http://t/a#b") then "&" else "?") ++
        String.intercalate "&" ([("k", "v")].map (fun p => p.1 ++ "=" ++ p.2)) :=
  (c6_wire_url "http://t/a#b" [("k", "v")]).1 (by decide)

/-- Claim C7: when a step has loaded step-scope headers, the header list and
the cookie handed to the driver are computed from the step-scope header
string alone, whatever the test-scope header string `th` is: step-scope
headers fully replace test-scope headers, with no merging. -/
theorem c7_step_headers_override (E : ZbxExt) (th : String) (tv : List (String × String))
    (retries : Int) (row : DbHttpStep) (w : StepWorld) (t : Int)
    (_hth : th ≠ "")
    (hload : w.load_ok = true)
    (htime : E.isTimeSuffix (E.substCommon row.timeout) = some t)
    (hlo : 1 ≤ t) (hhi : t ≤ SEC_PER_HOUR)
    (hstep : w.loaded_headers ≠ "") :
    (process_step E th tv retries row w).trace.headers_used =
      (add_http_headers w.loaded_headers).headers_slist ∧
    (process_step E th tv retries row w).trace.cookie =
      (add_http_headers w.loaded_headers).header_cookie := by
  unfold process_step
  rw [hload]
  simp only [Bool.true_eq_false, if_false, htime]
  rw [if_neg (by omega : ¬ (t < 1 ∨ SEC_PER_HOUR < t))]
  rw [if_pos hstep]
  split
  · exact ⟨rfl, rfl⟩
  · split
    · exact ⟨rfl, rfl⟩
    · split
      · exact ⟨rfl, rfl⟩
      · exact ⟨rfl, rfl⟩

def stepHeadersWorld : StepWorld :=
  { benign_world [true] with loaded_headers := "X-Step: 2\r\nCookie: c=3" }

/-- Witness for claim C7 at a concrete step world with both header scopes
non-empty. -/
theorem c7_step_headers_override_witness :
    (process_step extId "X-Test: 1" [] 1 (benign_row 1) stepHeadersWorld).trace.headers_used =
      (add_http_headers stepHeadersWorld.loaded_headers).headers_slist ∧
    (process_step extId "X-Test: 1" [] 1 (benign_row 1) stepHeadersWorld).trace.cookie =
      (add_http_headers stepHeadersWorld.loaded_headers).header_cookie :=
  c7_step_headers_override extId "X-Test: 1" [] 1 (benign_row 1) stepHeadersWorld 15
    (by decide) (by decide) (by decide) (by decide) (by decide) (by decide)

/-- Claim C4: every execution of a test performs exactly one test-level
emission pass: the single `process_test_data` call receives exactly the tuple
(lastfailedstep, speed, err) the run produced, on every exit path (invalid
delay, driver initialisation failure, mid-test step failure, success). -/
theorem c4_single_test_emission (E : ZbxExt) (env : TestEnv) :
    (process_httptest E env).test_data_calls =
      [⟨(process_httptest E env).lastfailedstep, (process_httptest E env).speed,
        (process_httptest E env).err_str⟩] := by
  unfold process_httptest finish_httptest
  dsimp only
  cases E.isTimeSuffix (E.substCommon env.test.delay)
  · rfl
  · split_ifs <;> rfl

/-- Claim C5: with an invalid delay string, `lastfailedstep` is internally set
to -1, normalised to 1 before the test-level emission (hence non-negative on
the wire), the error string is `update interval "<delay>" is invalid` for the
macro-expanded delay, no step is performed, no step emission happens, and the
next poll delay is the default interval. -/
theorem c5_invalid_delay (E : ZbxExt) (env : TestEnv)
    (h : E.isTimeSuffix (E.substCommon env.test.delay) = none) :
    (process_httptest E env).raw_lastfailedstep = -1 ∧
    (process_httptest E env).lastfailedstep = 1 ∧
    0 ≤ (process_httptest E env).lastfailedstep ∧
    (process_httptest E env).err_str =
      some ("update interval \"" ++ E.substCommon env.test.delay ++ "\" is invalid") ∧
    (process_httptest E env).traces = [] ∧
    (process_httptest E env).step_data_calls = [] ∧
    (process_httptest E env).delay_out = ZBX_DEFAULT_INTERVAL := by
  rw [process_httptest_invalid_delay E env h]
  obtain ⟨f1, f2, f3, f4, f5, f6, f7, f8, f9⟩ := finish_httptest_fields [] [] 0 0
    (some ("update interval \"" ++ E.substCommon env.test.delay ++ "\" is invalid")) (-1)
    ZBX_DEFAULT_INTERVAL env.test.retries
  have hone : (finish_httptest [] [] 0 0
      (some ("update interval \"" ++ E.substCommon env.test.delay ++ "\" is invalid")) (-1)
      ZBX_DEFAULT_INTERVAL env.test.retries).lastfailedstep = 1 := by
    rw [f4]
    simp
  exact ⟨f3, hone, by rw [hone]; norm_num, f2, f1, f7, f8⟩

/-- Witness for claim C5: the delay string `abc` is rejected. -/
theorem c5_invalid_delay_witness :
    (process_httptest extId envBadDelay).raw_lastfailedstep = -1 ∧
    (process_httptest extId envBadDelay).lastfailedstep = 1 ∧
    0 ≤ (process_httptest extId envBadDelay).lastfailedstep ∧
    (process_httptest extId envBadDelay).err_str =
      some ("update interval \"" ++ extId.substCommon envBadDelay.test.delay ++ "\" is invalid") ∧
    (process_httptest extId envBadDelay).traces = [] ∧
    (process_httptest extId envBadDelay).step_data_calls = [] ∧
    (process_httptest extId envBadDelay).delay_out = ZBX_DEFAULT_INTERVAL :=
  c5_invalid_delay extId envBadDelay (by decide)

/-- Counterexample to claim C2 as stated: with an invalid update interval the
test emits lastfailedstep 1 with a non-empty error string although not a
single step ran, so "err_str is empty iff no step produced an error" fails. -/
theorem c2_counterexample :
    (process_httptest extId envBadDelay).err_str ≠ none ∧
    (process_httptest extId envBadDelay).traces = [] ∧
    (process_httptest extId envBadDelay).lastfailedstep = 1 := by
  decide

/-- Claim C2 (amended): the emitted lastfailedstep is 0 iff err_str is empty;
an empty err_str implies that no step produced an error; and when a step did
produce an error (its `no` being at least 1, as step numbering starts at 1),
the emitted lastfailedstep is the `no` of that first failing step and err_str
is its error.  Test-level failures (invalid delay, driver initialisation)
however emit a non-empty err_str with lastfailedstep 1 although no step
produced an error. -/
theorem c2_amended (E : ZbxExt) (env : TestEnv) (hno : ∀ s ∈ env.steps, 1 ≤ s.1.no) :
    ((process_httptest E env).lastfailedstep = 0 ↔ (process_httptest E env).err_str = none) ∧
    ((process_httptest E env).err_str = none → ∀ t ∈ (process_httptest E env).traces, t.err = none) ∧
    (∀ t ∈ (process_httptest E env).traces, t.err ≠ none →
      (process_httptest E env).err_str = t.err ∧
      (process_httptest E env).lastfailedstep = t.no) := by
  rcases hts : E.isTimeSuffix (E.substCommon env.test.delay) with _ | d
  · rw [process_httptest_invalid_delay E env hts]
    simp [finish_httptest]
  · by_cases hc : env.curl_init_ok = false
    · rw [process_httptest_curl_fail E env d hts hc]
      simp [finish_httptest]
    · rw [Bool.not_eq_false] at hc
      by_cases hsf : env.ssl_ok = false
      · rw [process_httptest_ssl_fail E env d hts hc hsf]
        simp [finish_httptest]
      · rw [Bool.not_eq_false] at hsf
        rw [process_httptest_main E env d hts hc hsf]
        have F := finish_httptest_fields
          (run_steps E env env.steps 0 env.test.retries).traces
          (run_steps E env env.steps 0 env.test.retries).step_calls
          (run_steps E env env.steps 0 env.test.retries).sum
          (run_steps E env env.steps 0 env.test.retries).num
          (run_steps E env env.steps 0 env.test.retries).err
          (run_steps E env env.steps 0 env.test.retries).lfs d
          (run_steps E env env.steps 0 env.test.retries).retries
        rw [F.1, F.2.1, F.2.2.2.1]
        cases hke : (run_steps E env env.steps 0 env.test.retries).err with
        | none =>
          obtain ⟨hl0, htr⟩ := run_steps_err_none E env env.steps 0 env.test.retries hke
          rw [hl0]
          exact ⟨by simp, fun _ => htr, fun t ht hne => absurd (htr t ht) hne⟩
        | some e =>
          refine ⟨⟨?_, ?_⟩, ?_, ?_⟩
          · intro h0
            rw [if_pos (Option.some_ne_none e)] at h0
            exfalso
            by_cases hl : (run_steps E env env.steps 0 env.test.retries).lfs ≤ 0
            · rw [if_pos hl] at h0
              omega
            · rw [if_neg hl] at h0
              omega
          · intro hnone
            exact absurd hnone (Option.some_ne_none e)
          · intro hnone
            exact absurd hnone (Option.some_ne_none e)
          · intro t ht hne
            obtain ⟨he, hlfs⟩ := run_steps_err_mem E env env.steps 0 env.test.retries t ht hne
            have hge := run_steps_no_ge_one E env env.steps 0 env.test.retries hno t ht
            rw [hke] at he
            refine ⟨he, ?_⟩
            rw [if_pos (Option.some_ne_none e), hlfs, if_neg (by omega : ¬ t.no ≤ 0)]

/-- Witness for claim C2 (amended) at a concrete two-step execution. -/
theorem c2_amended_witness :
    ((process_httptest extId envPersist).lastfailedstep = 0 ↔
      (process_httptest extId envPersist).err_str = none) ∧
    ((process_httptest extId envPersist).err_str = none →
      ∀ t ∈ (process_httptest extId envPersist).traces, t.err = none) ∧
    (∀ t ∈ (process_httptest extId envPersist).traces, t.err ≠ none →
      (process_httptest extId envPersist).err_str = t.err ∧
      (process_httptest extId envPersist).lastfailedstep = t.no) :=
  c2_amended extId envPersist (by decide)

section

attribute [local semireducible] Rat.mul Rat.inv Rat.add Rat.sub

/-- Counterexample to claim C3 as stated: step 1 succeeds with speed 100;
step 2's perform succeeds but its response-code fetch fails (recording an
error) and its speed fetch fails, yet step 2 is still counted with speed 0.
The code emits mean 50 while the spec's "mean over steps with a valid speed
measurement" is 100. -/
theorem c3_counterexample :
    (process_httptest extId envSpeedSkew).speed = 50 ∧
    spec_speed_download (process_httptest extId envSpeedSkew) = 100 ∧
    (process_httptest extId envSpeedSkew).speed ≠
      spec_speed_download (process_httptest extId envSpeedSkew) := by
  decide
end

/-- Claim C3 (amended): the emitted test-level speed is the sum over the
counted steps divided by their number, 0 when none is counted; a step is
counted iff its perform succeeded and either the speed fetch succeeded or an
error had already been recorded for the step before the speed fetch (such a
step contributing 0 to the sum) — not exactly the steps with a valid speed
measurement. -/
theorem c3_amended (E : ZbxExt) (env : TestEnv) :
    ((process_httptest E env).speed =
      if ((process_httptest E env).traces.filter (fun t => t.speed_counted)).length = 0 then 0
      else (((process_httptest E env).traces.filter (fun t => t.speed_counted)).map
          (fun t => t.stat.speed_download)).sum /
        ((((process_httptest E env).traces.filter (fun t => t.speed_counted)).length : Rat))) ∧
    ∀ t ∈ (process_httptest E env).traces,
      t.speed_counted = (t.success && (t.speed_fetched || t.err_before_speed)) := by
  rcases hts : E.isTimeSuffix (E.substCommon env.test.delay) with _ | d
  · rw [process_httptest_invalid_delay E env hts]
    simp [finish_httptest]
  · by_cases hc : env.curl_init_ok = false
    · rw [process_httptest_curl_fail E env d hts hc]
      simp [finish_httptest]
    · rw [Bool.not_eq_false] at hc
      by_cases hsf : env.ssl_ok = false
      · rw [process_httptest_ssl_fail E env d hts hc hsf]
        simp [finish_httptest]
      · rw [Bool.not_eq_false] at hsf
        rw [process_httptest_main E env d hts hc hsf]
        have F := finish_httptest_fields
          (run_steps E env env.steps 0 env.test.retries).traces
          (run_steps E env env.steps 0 env.test.retries).step_calls
          (run_steps E env env.steps 0 env.test.retries).sum
          (run_steps E env env.steps 0 env.test.retries).num
          (run_steps E env env.steps 0 env.test.retries).err
          (run_steps E env env.steps 0 env.test.retries).lfs d
          (run_steps E env env.steps 0 env.test.retries).retries
        rw [F.1, F.2.2.2.2.1]
        obtain ⟨hs1, hs2⟩ := run_steps_speed E env env.steps 0 env.test.retries
        rw [hs1, hs2]
        constructor
        · by_cases hz : (((run_steps E env env.steps 0 env.test.retries).traces.filter
              (fun t => t.speed_counted)).length) = 0
          · rw [List.length_eq_zero.mp hz]
            simp
          · rw [if_pos hz, if_neg hz]
        · exact fun t ht => (run_steps_trace_props E env env.steps 0 env.test.retries t ht).2.2

/-- Witness for claim C3 (amended) at a concrete two-step execution. -/
theorem c3_amended_witness :
    (process_httptest extId envSpeedSkew).speed =
      if ((process_httptest extId envSpeedSkew).traces.filter (fun t => t.speed_counted)).length = 0
      then 0
      else (((process_httptest extId envSpeedSkew).traces.filter (fun t => t.speed_counted)).map
          (fun t => t.stat.speed_download)).sum /
        ((((process_httptest extId envSpeedSkew).traces.filter (fun t => t.speed_counted)).length : Rat)) :=
  (c3_amended extId envSpeedSkew).1

/-- Claim C9: the retry budget is decremented in place on each failed perform
and the decremented value persists into the following steps of the same test
(the traces form a chain in which each step starts with the budget the
previous step left), and every step that reaches the perform loop makes at
least one attempt regardless of the remaining budget. -/
theorem c9_retry_budget_shared (E : ZbxExt) (env : TestEnv) :
    retries_chain env.test.retries (process_httptest E env).traces ∧
    ∀ t ∈ (process_httptest E env).traces,
      (t.performed = true → 1 ≤ t.attempts) ∧ (t.performed = false → t.attempts = 0) := by
  rcases hts : E.isTimeSuffix (E.substCommon env.test.delay) with _ | d
  · rw [process_httptest_invalid_delay E env hts]
    simp [finish_httptest, retries_chain]
  · by_cases hc : env.curl_init_ok = false
    · rw [process_httptest_curl_fail E env d hts hc]
      simp [finish_httptest, retries_chain]
    · rw [Bool.not_eq_false] at hc
      by_cases hsf : env.ssl_ok = false
      · rw [process_httptest_ssl_fail E env d hts hc hsf]
        simp [finish_httptest, retries_chain]
      · rw [Bool.not_eq_false] at hsf
        rw [process_httptest_main E env d hts hc hsf]
        have F := finish_httptest_fields
          (run_steps E env env.steps 0 env.test.retries).traces
          (run_steps E env env.steps 0 env.test.retries).step_calls
          (run_steps E env env.steps 0 env.test.retries).sum
          (run_steps E env env.steps 0 env.test.retries).num
          (run_steps E env env.steps 0 env.test.retries).err
          (run_steps E env env.steps 0 env.test.retries).lfs d
          (run_steps E env env.steps 0 env.test.retries).retries
        rw [F.1]
        exact ⟨run_steps_chain E env env.steps 0 env.test.retries,
          fun t ht => ⟨(run_steps_trace_props E env env.steps 0 env.test.retries t ht).1,
            (run_steps_trace_props E env env.steps 0 env.test.retries t ht).2.1⟩⟩

/-- Witness for claim C9: with retries = 3, step 1 consumes one failed
attempt and step 2 starts with the remaining budget 2. -/
theorem c9_retry_budget_shared_witness :
    retries_chain envPersist.test.retries (process_httptest extId envPersist).traces :=
  (c9_retry_budget_shared extId envPersist).1

/-- Counterexample to claim C1 as stated: with retries = 2 and a server that
refuses the first two connection attempts and would accept the third, only
two perform attempts occur and the step fails with lasterror set — not three
attempts and success with no lasterror. -/
theorem c1_counterexample :
    (process_httptest extId envRetryRefuse).traces.map (fun t => t.attempts) = [2] ∧
    (process_httptest extId envRetryRefuse).err_str ≠ none ∧
    ¬ ((((process_httptest extId envRetryRefuse).traces.map (fun t => t.attempts)).sum = 3) ∧
       (process_httptest extId envRetryRefuse).err_str = none) := by
  decide

/-- Claim C1 (amended): the retry loop makes at least one and at most
max(1, retries) perform attempts in total for a step — that is, up to
retries − 1 additional attempts after the first, not retries additional
ones — and with retries = 2 and a server refusing the first two connection
attempts, exactly two perform attempts occur, the step fails, and lasterror
carries the wrapped transport error. -/
theorem c1_amended :
    (∀ (retries : Int) (outcomes : List Bool),
      1 ≤ (retry_perform retries outcomes).2.1 ∧
      (retry_perform retries outcomes).2.1 ≤ max 1 retries.toNat) ∧
    (process_httptest extId envRetryRefuse).traces.map (fun t => t.attempts) = [2] ∧
    (process_httptest extId envRetryRefuse).err_str =
      some "Could not connect to server: connection refused" ∧
    (process_httptest extId envRetryRefuse).lastfailedstep = 1 := by
  refine ⟨fun retries outcomes =>
    ⟨(retry_perform_spec retries outcomes).1, (retry_perform_spec retries outcomes).2.1⟩,
    by decide, by decide, by decide⟩
